import Mathlib

/-!
Verification of the relation_server identity-graph core, shallowly embedded
from the Rust sources.

Conventions of the embedding:
* Machine times (`chrono::NaiveDateTime`) are modelled as `Int` seconds;
  `chrono::Duration::hours h` is `h * 3600` seconds, `days d` is `d * 86400`.
* `Uuid` values are modelled as `Nat`.
* The persistent ArangoDB collections are modelled as Lean lists of records;
  a query that takes the first match (`query_result.first()`) becomes
  `List.find?`.
* Fallible Rust code returning `Result<_, Error>` becomes `Except`.
* `async` side effects (spawning a detached task, running a crawl) are
  reified as explicit data so the controller's branching can be stated.
-/

/-- Embeds `Platform` enum from `src/upstream/mod.rs` (plus `reddit`, which is
referenced by the Keybase fetcher's supported-platform list). -/
inductive Platform
  | twitter
  | ethereum
  | nextID
  | keybase
  | github
  | reddit
  | unknown
deriving DecidableEq, Repr

/-- Embeds `DataSource` enum from `src/upstream/mod.rs`. -/
inductive DataSource
  | sybilList
  | keybase
  | nextID
  | rss3
  | knn3
  | cyberConnect
  | ethLeaderboard
  | unknown
deriving DecidableEq, Repr

/-- Embeds `Option::or` as used by the Rust upsert code: prefer the first operand
when present. -/
def optOr {α : Type} (a b : Option α) : Option α :=
  match a with
  | some x => some x
  | none => b

/-- The `Identity` vertex struct from `src/graph/vertex/identity.rs`. -/
structure Identity where
  uuid : Option Nat
  platform : Platform
  identity : String
  display_name : Option String
  profile_url : Option String
  avatar_url : Option String
  created_at : Option Int
  added_at : Int
  updated_at : Int
deriving DecidableEq, Repr

/-- Embeds `impl PartialEq for Identity` (identity.rs lines 83-87):
`self.uuid.is_some() && other.uuid.is_some() && self.uuid == other.uuid`. -/
def identityEq (a b : Identity) : Bool :=
  a.uuid.isSome && b.uuid.isSome && a.uuid == b.uuid

/-- Embeds `Identity::is_outdated` (identity.rs lines 250-257):
`updated_at + 1 hour < now`. -/
def Identity.is_outdated (self : Identity) (now : Int) : Bool :=
  decide (self.updated_at + 3600 < now)

/-- The `Hold` edge struct from `src/graph/edge/hold.rs` (data part). -/
structure Hold where
  uuid : Nat
  source : DataSource
  transaction : Option String
  id : String
  created_at : Option Int
  updated_at : Int
deriving DecidableEq, Repr

/-- Embeds `Hold::is_outdated` (hold.rs lines 155-161): `updated_at + 8 hours < now`. -/
def Hold.is_outdated (self : Hold) (now : Int) : Bool :=
  decide (self.updated_at + 28800 < now)

/-- Embeds `DomainNameSystem` enum from `src/graph/edge/resolve.rs`. -/
inductive DomainNameSystem
  | ens
  | unknown
deriving DecidableEq, Repr

/-- The `Resolve` edge struct from `src/graph/edge/resolve.rs` (data part). -/
structure Resolve where
  uuid : Nat
  source : DataSource
  system : DomainNameSystem
  name : String
  updated_at : Int
deriving DecidableEq, Repr

/-- Embeds `Resolve::is_outdated` (resolve.rs lines 105-111): `updated_at + 1 day < now`. -/
def Resolve.is_outdated (self : Resolve) (now : Int) : Bool :=
  decide (self.updated_at + 86400 < now)

/-- A concrete `Identity` whose `uuid` is `None`, as any fetcher-constructed,
not-yet-saved value could be. -/
def unsavedIdentity : Identity :=
  { uuid := none
    platform := Platform.twitter
    identity := "alice"
    display_name := none
    profile_url := none
    avatar_url := none
    created_at := none
    added_at := 0
    updated_at := 0 }

/-- C7: For each entity kind, `is_outdated()` returns true exactly when the
current time is strictly greater than `updated_at` plus that kind's own TTL
(1 hour for Identity, 8 hours for Hold, 1 day for Resolve); hence it is
false at `updated_at + ttl - 1s` and true at `updated_at + ttl + 1s`. -/
theorem is_outdated_ttl_per_kind (idv : Identity) (h : Hold) (r : Resolve) (now : Int) :
    (idv.is_outdated now = true ↔ idv.updated_at + 3600 < now)
    ∧ (h.is_outdated now = true ↔ h.updated_at + 28800 < now)
    ∧ (r.is_outdated now = true ↔ r.updated_at + 86400 < now)
    ∧ idv.is_outdated (idv.updated_at + 3600 - 1) = false
    ∧ idv.is_outdated (idv.updated_at + 3600 + 1) = true
    ∧ h.is_outdated (h.updated_at + 28800 - 1) = false
    ∧ h.is_outdated (h.updated_at + 28800 + 1) = true
    ∧ r.is_outdated (r.updated_at + 86400 - 1) = false
    ∧ r.is_outdated (r.updated_at + 86400 + 1) = true := by
  refine ⟨?_, ?_, ?_, ?_, ?_, ?_, ?_, ?_, ?_⟩ <;>
    simp [Identity.is_outdated, Hold.is_outdated, Resolve.is_outdated]

/-- C10: equality of two in-memory `Identity` values holds only when both
carry a `Some` uuid and the uuids agree; an `Identity` whose uuid is `None`
is not equal to any value, itself included, so the relation is not
reflexive and two unsaved copies with identical fields never compare
equal. -/
theorem identityEq_requires_some_uuid :
    (∀ a b : Identity,
      identityEq a b = true ↔ ∃ u : Nat, a.uuid = some u ∧ b.uuid = some u)
    ∧ (∀ a : Identity, identityEq { a with uuid := none } { a with uuid := none } = false)
    ∧ identityEq unsavedIdentity unsavedIdentity = false
    ∧ ¬ (∀ a : Identity, identityEq a a = true) := by
  refine ⟨?_, ?_, ?_, ?_⟩
  · intro a b
    cases ha : a.uuid <;> cases hb : b.uuid <;>
      simp [identityEq, ha, hb]
    exact eq_comm
  · intro a
    simp [identityEq]
  · rfl
  · intro hall
    have := hall unsavedIdentity
    simp [identityEq, unsavedIdentity] at this

/- ## Graph Store: Identity upsert (`create_or_update`, identity.rs 186-235)

The Identities collection is a list of saved `Identity` records.
`create_or_update` first looks the key up in the store as seen at lookup
time; the attempted `DatabaseRecord::create` runs against the store as seen
at insert time, which may additionally contain a record inserted by a
concurrent writer in between (the `race` parameter).  ArangoDB's unique
index on (platform, identity) raises `aragog::Error::Conflict` exactly when
the insert-time store already holds the key; any other creation failure
(connection loss etc.) is modelled by the `ioErr` parameter. -/

/-- Store-level failure, as propagated by the Rust `Error` type. -/
inductive StoreError
  /-- The `.expect("Not found after an race condition...")` panic site. -/
  | panicNotFound
  /-- A non-conflict creation failure (`Err(err) => return Err(err.into())`). -/
  | ioFailure (msg : String)
deriving DecidableEq, Repr

/-- The (platform, identity) key predicate used by
`Identity::find_by_platform_identity`. -/
def matchesKey (r : Identity) (p : Platform) (i : String) : Bool :=
  r.platform == p && r.identity == i

/-- Embeds `Identity::find_by_platform_identity` (identity.rs 91-127): filter the
collection by platform and identity, return the first hit if any. -/
def find_by_platform_identity (store : List Identity) (p : Platform) (i : String) :
    Option Identity :=
  store.find? (fun r => matchesKey r p i)

/-- Embeds `found.save(db)`: replace the stored record carrying the key. -/
def saveUpdated (store : List Identity) (p : Platform) (i : String) (updated : Identity) :
    List Identity :=
  store.map (fun r => if matchesKey r p i then updated else r)

/-- Embeds `Identity::create_or_update` (identity.rs 186-235).  Returns the record
the Rust function returns together with the resulting store contents.

* update branch (lines 223-233): `display_name` and `created_at` are merged
  with `Option::or` (incoming preferred when present), `profile_url` and
  `avatar_url` are assigned from the incoming record unconditionally,
  `updated_at` is stamped to now, and the record is saved.
* create branch (lines 190-220): uuid defaulted with `Option::or`,
  `added_at`/`updated_at` stamped, creation attempted; on a uniqueness
  `Conflict` the key is re-read and the winner returned; any other
  creation failure propagates. -/
def create_or_update (incoming : Identity) (store : List Identity)
    (race : Option Identity) (now : Int) (freshUuid : Nat) (ioErr : Option String) :
    Except StoreError (Identity × List Identity) :=
  match find_by_platform_identity store incoming.platform incoming.identity with
  | some found =>
      let updated : Identity :=
        { found with
          display_name := optOr incoming.display_name found.display_name
          profile_url := incoming.profile_url
          avatar_url := incoming.avatar_url
          created_at := optOr incoming.created_at found.created_at
          updated_at := now }
      Except.ok (updated, saveUpdated store incoming.platform incoming.identity updated)
  | none =>
      let toBeCreated : Identity :=
        { incoming with
          uuid := optOr incoming.uuid (some freshUuid)
          added_at := now
          updated_at := now }
      let createStore := store ++ race.toList
      if (find_by_platform_identity createStore incoming.platform incoming.identity).isSome then
        -- `Err(aragog::Error::Conflict(_))`: need_refetch, then re-read the key.
        match find_by_platform_identity createStore incoming.platform incoming.identity with
        | some winner => Except.ok (winner, createStore)
        | none => Except.error StoreError.panicNotFound
      else
        match ioErr with
        | some e => Except.error (StoreError.ioFailure e)
        | none => Except.ok (toBeCreated, createStore ++ [toBeCreated])

/-- The stored record an incoming `None` must not erase (for C1). -/
def storedBob : Identity :=
  { uuid := some 1
    platform := Platform.twitter
    identity := "bob"
    display_name := some "Bob"
    profile_url := some "https://example.com/bob"
    avatar_url := some "https://example.com/bob.png"
    created_at := some 10
    added_at := 20
    updated_at := 30 }

/-- An incoming observation of the same key with every optional field absent. -/
def incomingBobAllNone : Identity :=
  { uuid := none
    platform := Platform.twitter
    identity := "bob"
    display_name := none
    profile_url := none
    avatar_url := none
    created_at := none
    added_at := 40
    updated_at := 40 }

/-- The record `create_or_update` stores for the C1 counterexample. -/
def updatedBob : Identity :=
  { storedBob with profile_url := none, avatar_url := none, updated_at := 50 }

/-- C1 counterexample: upserting an incoming record whose `profile_url` and
`avatar_url` are `None` over a stored record that has both erases them:
the claim that an absent incoming value never erases any of the four
optional fields fails on `profile_url` and `avatar_url`. -/
theorem create_or_update_none_erases_urls :
    storedBob.profile_url = some "https://example.com/bob"
    ∧ storedBob.avatar_url = some "https://example.com/bob.png"
    ∧ incomingBobAllNone.profile_url = none
    ∧ incomingBobAllNone.avatar_url = none
    ∧ create_or_update incomingBobAllNone [storedBob] none 50 7 none =
        Except.ok (updatedBob, [updatedBob])
    ∧ updatedBob.profile_url = none
    ∧ updatedBob.avatar_url = none
    ∧ updatedBob.display_name = some "Bob"
    ∧ updatedBob.created_at = some 10 :=
  ⟨rfl, rfl, rfl, rfl, rfl, rfl, rfl, rfl, rfl⟩

/-- C1 amended: in the update branch of `create_or_update`, `display_name`
and `created_at` are overwritten only by an incoming present value (an
incoming `None` keeps the stored value), while `profile_url` and
`avatar_url` are unconditionally replaced by the incoming values (an
incoming `None` erases a stored value), and `updated_at` is set to the
current time. -/
theorem create_or_update_merge_fields (incoming found : Identity)
    (store : List Identity) (race : Option Identity) (now : Int) (u : Nat)
    (ioErr : Option String)
    (hfound : find_by_platform_identity store incoming.platform incoming.identity
      = some found) :
    ∃ r st, create_or_update incoming store race now u ioErr = Except.ok (r, st)
      ∧ r.display_name = optOr incoming.display_name found.display_name
      ∧ (incoming.display_name = none → r.display_name = found.display_name)
      ∧ r.profile_url = incoming.profile_url
      ∧ r.avatar_url = incoming.avatar_url
      ∧ r.created_at = optOr incoming.created_at found.created_at
      ∧ (incoming.created_at = none → r.created_at = found.created_at)
      ∧ r.updated_at = now
      ∧ st = saveUpdated store incoming.platform incoming.identity r := by
  unfold create_or_update
  rw [hfound]
  refine ⟨_, _, rfl, rfl, ?_, rfl, rfl, rfl, ?_, rfl, rfl⟩
  · intro hn
    simp [hn, optOr]
  · intro hn
    simp [hn, optOr]

/-- Witness for `create_or_update_merge_fields` at a concrete store. -/
theorem create_or_update_merge_fields_witness :
    ∃ r st,
      create_or_update incomingBobAllNone [storedBob] none 50 7 none = Except.ok (r, st)
      ∧ r.display_name = optOr incomingBobAllNone.display_name storedBob.display_name
      ∧ (incomingBobAllNone.display_name = none → r.display_name = storedBob.display_name)
      ∧ r.profile_url = incomingBobAllNone.profile_url
      ∧ r.avatar_url = incomingBobAllNone.avatar_url
      ∧ r.created_at = optOr incomingBobAllNone.created_at storedBob.created_at
      ∧ (incomingBobAllNone.created_at = none → r.created_at = storedBob.created_at)
      ∧ r.updated_at = 50
      ∧ st = saveUpdated [storedBob] incomingBobAllNone.platform incomingBobAllNone.identity r :=
  create_or_update_merge_fields incomingBobAllNone storedBob [storedBob] none 50 7 none rfl

/-- Helper: when the lookup missed but the insert-time store contains a
record `w` with the requested key, `create_or_update` takes the Conflict
branch, re-reads, and returns `w` — for any `ioErr`. -/
theorem create_or_update_conflict_case (incoming w : Identity) (store : List Identity)
    (now : Int) (u : Nat) (ioErr : Option String)
    (hmiss : find_by_platform_identity store incoming.platform incoming.identity = none)
    (hwp : w.platform = incoming.platform) (hwi : w.identity = incoming.identity) :
    create_or_update incoming store (some w) now u ioErr = Except.ok (w, store ++ [w]) := by
  have hfind : find_by_platform_identity (store ++ [w]) incoming.platform incoming.identity
      = some w := by
    unfold find_by_platform_identity at hmiss ⊢
    rw [List.find?_append, hmiss]
    simp [matchesKey, hwp, hwi]
  simp [create_or_update, hmiss, hfind, Option.toList]

/-- C2: when the (platform, identity) lookup misses, a creation that hits a
uniqueness conflict (a concurrent writer `w` inserted the same key) is not
propagated as an error: the key is re-read and the winner `w` is returned,
so two concurrent calls with identical (platform, identity) converge to the
same stored record; a creation failure for any other reason is propagated
to the caller. -/
theorem create_or_update_race_semantics (incoming w : Identity) (store : List Identity)
    (now now2 : Int) (u u2 : Nat) (e : String)
    (hmiss : find_by_platform_identity store incoming.platform incoming.identity = none)
    (hwp : w.platform = incoming.platform) (hwi : w.identity = incoming.identity) :
    create_or_update incoming store (some w) now u none = Except.ok (w, store ++ [w])
    ∧ create_or_update incoming store none now u (some e)
        = Except.error (StoreError.ioFailure e)
    ∧ (∀ r st, create_or_update incoming store none now u none = Except.ok (r, st) →
        create_or_update incoming store (some r) now2 u2 none
          = Except.ok (r, store ++ [r])) := by
  refine ⟨create_or_update_conflict_case incoming w store now u none hmiss hwp hwi, ?_, ?_⟩
  · simp [create_or_update, hmiss]
  · intro r st h
    simp [create_or_update, hmiss] at h
    refine create_or_update_conflict_case incoming r store now2 u2 none hmiss ?_ ?_
    · rw [← h.1]
    · rw [← h.1]

/-- A concurrent winner for the (twitter, "alice") key. -/
def winnerAlice : Identity :=
  { uuid := some 2
    platform := Platform.twitter
    identity := "alice"
    display_name := some "Alice"
    profile_url := none
    avatar_url := none
    created_at := none
    added_at := 1
    updated_at := 1 }

/-- Witness for `create_or_update_race_semantics` on an empty store. -/
theorem create_or_update_race_semantics_witness :
    create_or_update unsavedIdentity [] (some winnerAlice) 5 9 none
        = Except.ok (winnerAlice, [winnerAlice])
    ∧ create_or_update unsavedIdentity [] none 5 9 (some "io")
        = Except.error (StoreError.ioFailure "io")
    := by
  have h := create_or_update_race_semantics unsavedIdentity winnerAlice [] 5 6 9 10 "io"
    rfl rfl rfl
  exact ⟨h.1, h.2.1⟩

/- ## Graph Store: edge connect (hold.rs, resolve.rs)

Edge collections are lists of `DatabaseRecord<EdgeRecord<_>>` values: the
edge data plus the `_from`/`_to` vertex keys.  `DatabaseRecord::link`
appends a new edge record; `edge.delete` removes that record from the
collection. -/

/-- A stored Hold edge: data plus the `_from` (Identity) and `_to`
(Contract) vertex keys. -/
structure HoldRecord where
  data : Hold
  keyFrom : Nat
  keyTo : Nat
deriving DecidableEq, Repr

/-- The (from, to, id) filter of `Hold::find_by_from_to_id` (hold.rs 75-91). -/
def holdMatches (e : HoldRecord) (f t : Nat) (i : String) : Bool :=
  e.keyFrom == f && e.keyTo == t && e.data.id == i

/-- Embeds `Hold::find_by_from_to_id` (hold.rs 75-91): first edge filtered by
`_from`, `_to` and `id`. -/
def find_by_from_to_id (store : List HoldRecord) (f t : Nat) (i : String) :
    Option HoldRecord :=
  store.find? (fun e => holdMatches e f t i)

/-- Embeds `Hold::connect` (hold.rs 172-185): look up by (from, to, id); if found,
return the edge unchanged; otherwise link a new edge. -/
def Hold.connect (self : Hold) (store : List HoldRecord) (f t : Nat) :
    HoldRecord × List HoldRecord :=
  match find_by_from_to_id store f t self.id with
  | some edge => (edge, store)
  | none =>
      let newEdge : HoldRecord := ⟨self, f, t⟩
      (newEdge, store ++ [newEdge])

/-- A stored Resolve edge: data plus the `_from` (Contract) and `_to`
(Identity) vertex keys. -/
structure ResolveRecord where
  data : Resolve
  keyFrom : Nat
  keyTo : Nat
deriving DecidableEq, Repr

/-- The (name, system) filter of `Resolve::find_by_name_system`
(resolve.rs 88-103): the `_from`/`_to` keys are not part of the filter. -/
def resolveMatches (e : ResolveRecord) (n : String) (s : DomainNameSystem) : Bool :=
  e.data.system == s && e.data.name == n

/-- Embeds `Resolve::find_by_name_system` (resolve.rs 88-103): first edge filtered
by `system` and `name` only. -/
def find_by_name_system (store : List ResolveRecord) (n : String) (s : DomainNameSystem) :
    Option ResolveRecord :=
  store.find? (fun e => resolveMatches e n s)

/-- Embeds `Resolve::connect` (resolve.rs 141-165): look up by (name, system); if
an edge is found connecting the same (from, to) pair, keep it; if it
connects a different pair, delete the stale edge and link a new one; if
absent, link a new one. -/
def Resolve.connect (self : Resolve) (store : List ResolveRecord) (f t : Nat) :
    ResolveRecord × List ResolveRecord :=
  match find_by_name_system store self.name self.system with
  | some edge =>
      if edge.keyFrom == f && edge.keyTo == t then
        (edge, store)
      else
        let newEdge : ResolveRecord := ⟨self, f, t⟩
        (newEdge, store.erase edge ++ [newEdge])
  | none =>
      let newEdge : ResolveRecord := ⟨self, f, t⟩
      (newEdge, store ++ [newEdge])

/-- At most one Resolve edge per (name, system) key in the collection. -/
def atMostOnePerNameSystem (store : List ResolveRecord) : Prop :=
  ∀ (n : String) (s : DomainNameSystem),
    store.countP (fun e => resolveMatches e n s) ≤ 1

/-- Helper: removing an element that satisfies `p` lowers `countP p` by
exactly one. -/
theorem countP_erase_add_one {α : Type} [DecidableEq α] (p : α → Bool) (l : List α)
    (a : α) (hmem : a ∈ l) (hp : p a = true) :
    (l.erase a).countP p + 1 = l.countP p := by
  induction l with
  | nil => cases hmem
  | cons x xs ih =>
      rw [List.erase_cons]
      by_cases hxa : x = a
      · subst hxa
        simp [List.countP_cons, hp]
      · have hxa' : (x == a) = false := by
          simp [hxa]
        have hmem' : a ∈ xs := by
          cases List.mem_cons.mp hmem with
          | inl h => exact absurd h.symm hxa
          | inr h => exact h
        have ih' := ih hmem'
        rw [hxa']
        simp only [if_neg Bool.false_ne_true, List.countP_cons]
        omega

/-- Helper: a missed `find?` means no element satisfies the predicate. -/
theorem countP_eq_zero_of_find?_none {α : Type} (p : α → Bool) (l : List α)
    (h : l.find? p = none) : l.countP p = 0 := by
  rw [List.countP_eq_zero]
  intro a ha
  simpa using List.find?_eq_none.mp h a ha

/-- Helper: an empty count means the find misses. -/
theorem find?_none_of_countP_zero {α : Type} (p : α → Bool) (l : List α)
    (h : l.countP p = 0) : l.find? p = none := by
  rw [List.find?_eq_none]
  intro a ha
  have := List.countP_eq_zero.mp h a ha
  simpa using this

/-- Helper: a singleton collection holds at most one edge per key. -/
theorem singleton_atMostOnePerNameSystem (e : ResolveRecord) :
    atMostOnePerNameSystem [e] := by
  intro n s
  simp only [List.countP_cons, List.countP_nil]
  split <;> simp

/-- C4: `Hold::connect` is idempotent on the key (from, to, id): when an
edge with that key already exists, `connect` returns it unchanged and
creates nothing; starting from a store with no such edge, calling `connect`
twice with identical (from, to, id) leaves exactly one stored Hold edge,
the second call returning the edge the first one linked. -/
theorem hold_connect_idempotent (self self2 : Hold) (storeWith storeFree : List HoldRecord)
    (f t : Nat) (existing : HoldRecord)
    (hid : self2.id = self.id)
    (hfound : find_by_from_to_id storeWith f t self.id = some existing)
    (hfree : storeFree.countP (fun e => holdMatches e f t self.id) = 0) :
    Hold.connect self storeWith f t = (existing, storeWith)
    ∧ ((Hold.connect self storeFree f t).2.countP
        (fun e => holdMatches e f t self.id) = 1
      ∧ Hold.connect self2 (Hold.connect self storeFree f t).2 f t
          = ((Hold.connect self storeFree f t).1, (Hold.connect self storeFree f t).2)) := by
  have hmiss : find_by_from_to_id storeFree f t self.id = none :=
    find?_none_of_countP_zero _ _ hfree
  have hnew : holdMatches ⟨self, f, t⟩ f t self.id = true := by
    simp [holdMatches]
  have hconn1 : Hold.connect self storeFree f t
      = (⟨self, f, t⟩, storeFree ++ [⟨self, f, t⟩]) := by
    simp [Hold.connect, hmiss]
  refine ⟨by simp [Hold.connect, hfound], ?_, ?_⟩
  · rw [hconn1]
    simp only [List.countP_append, hfree]
    simp [List.countP_cons, hnew]
  · have hfind2 : find_by_from_to_id (storeFree ++ [⟨self, f, t⟩]) f t self2.id
        = some ⟨self, f, t⟩ := by
      unfold find_by_from_to_id
      rw [hid, List.find?_append]
      unfold find_by_from_to_id at hmiss
      rw [hmiss]
      simp [hnew]
    rw [hconn1]
    simp [Hold.connect, hfind2]

/-- An ENS Hold edge data value for witnesses. -/
def holdEns : Hold :=
  { uuid := 11
    source := DataSource.rss3
    transaction := some "0xabc"
    id := "alice.eth"
    created_at := none
    updated_at := 0 }

/-- Witness for `hold_connect_idempotent`: an existing (1, 2, "alice.eth")
edge is returned unchanged, and connecting twice over an empty store leaves
exactly one edge. -/
theorem hold_connect_idempotent_witness :
    Hold.connect holdEns [⟨holdEns, 1, 2⟩] 1 2 = (⟨holdEns, 1, 2⟩, [⟨holdEns, 1, 2⟩])
    ∧ ((Hold.connect holdEns [] 1 2).2.countP
        (fun e => holdMatches e 1 2 holdEns.id) = 1
      ∧ Hold.connect holdEns (Hold.connect holdEns [] 1 2).2 1 2
          = ((Hold.connect holdEns [] 1 2).1, (Hold.connect holdEns [] 1 2).2)) :=
  hold_connect_idempotent holdEns holdEns [⟨holdEns, 1, 2⟩] [] 1 2 ⟨holdEns, 1, 2⟩
    rfl (by decide) (by decide)

/-- C3: `Resolve::connect` looks up only by (name, system); an existing
edge connecting the same (from, to) pair is kept and returned unchanged; an
existing edge connecting a different pair is deleted before the new link is
created; and the at-most-one-Resolve-edge-per-(name, system) invariant is
preserved by every connect. -/
theorem resolve_connect_unique_per_name_system (self : Resolve)
    (store : List ResolveRecord) (f t : Nat) :
    (∀ edge, find_by_name_system store self.name self.system = some edge →
      (edge.keyFrom == f && edge.keyTo == t) = true →
      Resolve.connect self store f t = (edge, store))
    ∧ (∀ edge, find_by_name_system store self.name self.system = some edge →
      (edge.keyFrom == f && edge.keyTo == t) = false →
      Resolve.connect self store f t
        = (⟨self, f, t⟩, store.erase edge ++ [⟨self, f, t⟩]))
    ∧ (atMostOnePerNameSystem store →
      atMostOnePerNameSystem (Resolve.connect self store f t).2) := by
  refine ⟨?_, ?_, ?_⟩
  · intro edge hfound hsame
    simp [Resolve.connect, hfound, hsame]
  · intro edge hfound hdiff
    simp [Resolve.connect, hfound, hdiff]
  · intro hInv
    match hfound : find_by_name_system store self.name self.system with
    | none =>
        have hzero : store.countP (fun e => resolveMatches e self.name self.system) = 0 :=
          countP_eq_zero_of_find?_none _ _ hfound
        intro n s
        simp only [Resolve.connect, hfound, List.countP_append]
        by_cases hns : n = self.name ∧ s = self.system
        · obtain ⟨hn, hs⟩ := hns
          subst hn; subst hs
          simp only [hzero]
          simp [List.countP_cons, resolveMatches]
        · have hnewf : resolveMatches ⟨self, f, t⟩ n s = false := by
            simp only [resolveMatches]
            rcases not_and_or.mp hns with hn | hs
            · simp [beq_iff_eq, Ne.symm hn]
            · simp [beq_iff_eq, Ne.symm hs]
          simp only [List.countP_cons, List.countP_nil, hnewf]
          simpa using hInv n s
    | some edge =>
        have hfound' : store.find? (fun e => resolveMatches e self.name self.system)
            = some edge := hfound
        have hpred0 := List.find?_some hfound'
        have hpred : resolveMatches edge self.name self.system = true := hpred0
        have hmem : edge ∈ store := List.mem_of_find?_eq_some hfound'
        by_cases hsame : (edge.keyFrom == f && edge.keyTo == t) = true
        · simpa [Resolve.connect, hfound, hsame] using hInv
        · intro n s
          have hconn : (Resolve.connect self store f t).2
              = store.erase edge ++ [(⟨self, f, t⟩ : ResolveRecord)] := by
            simp only [Resolve.connect, hfound]
            rw [if_neg hsame]
          rw [hconn, List.countP_append]
          by_cases hns : n = self.name ∧ s = self.system
          · obtain ⟨hn, hs⟩ := hns
            subst hn; subst hs
            have herase := countP_erase_add_one
              (fun e => resolveMatches e self.name self.system) store edge hmem hpred
            have hle := hInv self.name self.system
            have hzero : (store.erase edge).countP
                (fun e => resolveMatches e self.name self.system) = 0 := by omega
            simp only [hzero]
            simp [List.countP_cons, resolveMatches]
          · have hnewf : resolveMatches ⟨self, f, t⟩ n s = false := by
              simp only [resolveMatches]
              rcases not_and_or.mp hns with hn | hs
              · simp [beq_iff_eq, Ne.symm hn]
              · simp [beq_iff_eq, Ne.symm hs]
            have hle : (store.erase edge).countP (fun e => resolveMatches e n s)
                ≤ store.countP (fun e => resolveMatches e n s) :=
              (List.erase_sublist edge store).countP_le _
            simp only [List.countP_cons, List.countP_nil, hnewf,
              if_neg Bool.false_ne_true]
            have := hInv n s
            omega

/-- An ENS Resolve edge data value for witnesses. -/
def resolveEns : Resolve :=
  { uuid := 21
    source := DataSource.rss3
    system := DomainNameSystem.ens
    name := "alice.eth"
    updated_at := 0 }

/-- The previously stored Resolve edge for "alice.eth". -/
def oldResolveEdge : ResolveRecord := ⟨resolveEns, 1, 2⟩

/-- Witness for `resolve_connect_unique_per_name_system`: the same-pair
edge is kept, a different pair triggers delete-then-link, and the
invariant survives the transfer. -/
theorem resolve_connect_unique_witness :
    Resolve.connect resolveEns [oldResolveEdge] 1 2 = (oldResolveEdge, [oldResolveEdge])
    ∧ Resolve.connect resolveEns [oldResolveEdge] 7 8
        = (⟨resolveEns, 7, 8⟩, [oldResolveEdge].erase oldResolveEdge ++ [⟨resolveEns, 7, 8⟩])
    ∧ atMostOnePerNameSystem (Resolve.connect resolveEns [oldResolveEdge] 7 8).2 := by
  have h1 := resolve_connect_unique_per_name_system resolveEns [oldResolveEdge] 1 2
  have h2 := resolve_connect_unique_per_name_system resolveEns [oldResolveEdge] 7 8
  exact ⟨h1.1 oldResolveEdge (by decide) (by decide),
    h2.2.1 oldResolveEdge (by decide) (by decide),
    h2.2.2 (singleton_atMostOnePerNameSystem oldResolveEdge)⟩

/- ## The crawl orchestrator (`src/upstream/mod.rs`) -/

/-- Embeds `Chain` from `src/graph/vertex/contract.rs` (the variants used here). -/
inductive Chain
  | ethereum
  | polygon
  | binanceSmartChain
  | unknown
deriving DecidableEq, Repr

/-- Embeds `ContractCategory` from `src/graph/vertex/contract.rs` (the variants
used here). -/
inductive ContractCategory
  | ens
  | erc721
  | erc1155
  | unknown
deriving DecidableEq, Repr

/-- Embeds `Target` enum (upstream/mod.rs 27-34): a crawl work item, either an
(platform, identity) pair or an NFT key. Structural equality, as derived
by `#[derive(PartialEq)]`. -/
inductive Target
  | identity (platform : Platform) (ident : String)
  | nft (chain : Chain) (category : ContractCategory) (address : String) (tokenId : String)
deriving DecidableEq, Repr

/-- Embeds `Target::in_platform_supported` (upstream/mod.rs 42-47). -/
def Target.in_platform_supported (t : Target) (platforms : List Platform) : Bool :=
  match t with
  | .nft _ _ _ _ => false
  | .identity p _ => platforms.contains p

/-- The loop body of `fetch_all` (upstream/mod.rs 249-269), with the
results of `fetch_one` abstracted into a `discover` function and the
recursion bounded by explicit fuel (the Rust loop has no such bound; a run
that exhausts the fuel is reported as `none`).  `up_next` is a stack whose
head is the top (`Vec::pop` takes the most recently pushed Target); the
Target just fetched is recorded as processed before its discoveries are
filtered, and a discovery already in the processed list is discarded while
anything else is pushed. -/
def fetchAllLoop (discover : Target → List Target) :
    Nat → List Target → List Target → Option (List Target)
  | _, [], processed => some processed
  | 0, _ :: _, _ => none
  | fuel + 1, t :: rest, processed =>
      let fetched := discover t
      let processed2 := processed ++ [t]
      let upNext2 := fetched.foldl
        (fun acc d => if processed2.contains d then acc else d :: acc) rest
      fetchAllLoop discover fuel upNext2 processed2

/-- Embeds `fetch_all` (upstream/mod.rs 249-269): seed the work list with the
initial Target, run the loop, and return the processed list (the sequence
of Targets fetched, in order). -/
def fetch_all (discover : Target → List Target) (fuel : Nat) (initial : Target) :
    Option (List Target) :=
  fetchAllLoop discover fuel [initial] []

/-- C5: on a cyclic discovery relation (fetching `a` discovers `b` and
fetching `b` discovers `a`, with `a ≠ b`), `fetch_all` terminates (within
fuel 2) and fetches each of `a` and `b` exactly once: when `a` is
rediscovered from `b` it is already in the processed list and is
discarded instead of being pushed onto the work list. -/
theorem fetch_all_cycle_terminates (a b : Target) (hab : a ≠ b) :
    fetch_all (fun t => if t == a then [b] else if t == b then [a] else []) 2 a
      = some [a, b]
    ∧ [a, b].count a = 1 ∧ [a, b].count b = 1 := by
  have hba : b ≠ a := Ne.symm hab
  refine ⟨?_, ?_, ?_⟩
  · simp [fetch_all, fetchAllLoop, List.contains, hab, hba]
  · simp [List.count_cons, hba]
  · simp [List.count_cons, hab]

/-- Witness for `fetch_all_cycle_terminates` on two concrete Targets. -/
theorem fetch_all_cycle_terminates_witness :
    fetch_all
        (fun t => if t == Target.identity Platform.twitter "alice" then
            [Target.identity Platform.ethereum "0xabc"]
          else if t == Target.identity Platform.ethereum "0xabc" then
            [Target.identity Platform.twitter "alice"]
          else []) 2 (Target.identity Platform.twitter "alice")
      = some [Target.identity Platform.twitter "alice",
          Target.identity Platform.ethereum "0xabc"]
    ∧ [Target.identity Platform.twitter "alice",
        Target.identity Platform.ethereum "0xabc"].count
          (Target.identity Platform.twitter "alice") = 1
    ∧ [Target.identity Platform.twitter "alice",
        Target.identity Platform.ethereum "0xabc"].count
          (Target.identity Platform.ethereum "0xabc") = 1 :=
  fetch_all_cycle_terminates (Target.identity Platform.twitter "alice")
    (Target.identity Platform.ethereum "0xabc") (by decide)

/- ## Controller: stale-while-revalidate (`src/controller/graphql/identity.rs`) -/

/-- The crawl side effect the `IdentityQuery::identity` resolver performs,
reified: `fetch_all(target).await?` run synchronously before answering,
`tokio::spawn(async move { fetch_all(target).await })` spawned detached
without awaiting, or no crawl at all. -/
inductive CrawlEffect
  | syncCrawlThenReread
  | spawnDetachedRefetch
  | noCrawl
deriving DecidableEq, Repr

/-- The branching of `IdentityQuery::identity` (controller/graphql/identity.rs
152-178) on the looked-up record.  `found` is the result of
`find_by_platform_identity` at query time; `afterCrawl` is what a re-read
of the store returns once the synchronous crawl has run (only consulted on
the miss path).  Returns the answer sent to the caller and the crawl
effect performed. -/
def identityQuery (found : Option Identity) (now : Int) (afterCrawl : Option Identity) :
    Option Identity × CrawlEffect :=
  match found with
  | none => (afterCrawl, CrawlEffect.syncCrawlThenReread)
  | some f =>
      if f.is_outdated now then (some f, CrawlEffect.spawnDetachedRefetch)
      else (some f, CrawlEffect.noCrawl)

/-- C8: on a store miss the full crawl runs synchronously and the answer is
the post-crawl re-read; on an outdated record the existing (possibly
stale) record is answered immediately and a detached background crawl is
spawned, the answer not depending on the refresh's outcome; on a fresh
record the stored record is answered with no crawl. -/
theorem identity_query_stale_while_revalidate (now : Int)
    (afterCrawl afterCrawl2 : Option Identity) (f : Identity) :
    identityQuery none now afterCrawl = (afterCrawl, CrawlEffect.syncCrawlThenReread)
    ∧ identityQuery (some f) now afterCrawl
        = (some f,
          if f.is_outdated now then CrawlEffect.spawnDetachedRefetch
          else CrawlEffect.noCrawl)
    ∧ (identityQuery (some f) now afterCrawl).1 = some f
    ∧ (identityQuery (some f) now afterCrawl).1
        = (identityQuery (some f) now afterCrawl2).1 := by
  refine ⟨rfl, ?_, ?_, ?_⟩ <;>
    · unfold identityQuery
      by_cases hout : f.is_outdated now <;> simp [hout]

/- ## Fetchers and upstream failure handling (`src/upstream/keybase/mod.rs`,
`src/upstream/mod.rs` `fetch_one`) -/

/-- Embeds `Platform::from_str`, via the strum serializations in
upstream/mod.rs 126-160 (an unrecognized string is a parse error,
modelled as `none`). -/
def platformFromStr (s : String) : Option Platform :=
  if s = "twitter" then some Platform.twitter
  else if s = "ethereum" then some Platform.ethereum
  else if s = "eth" then some Platform.ethereum
  else if s = "nextid" then some Platform.nextID
  else if s = "keybase" then some Platform.keybase
  else if s = "github" then some Platform.github
  else if s = "unknown" then some Platform.unknown
  else none

/-- One entry of the Keybase `proofs_summary.all` array (the fields the
fetcher reads). -/
structure KeybaseProofItem where
  proof_type : String
  nametag : String
  proof_id : String
deriving DecidableEq, Repr

/-- One entry of the Keybase `them` array (the fields the fetcher reads). -/
structure KeybasePersonInfo where
  userId : String
  username : String
  proofs : List KeybaseProofItem
deriving DecidableEq, Repr

/-- The observable upstream interaction of the Keybase fetcher: the HTTP
status outcome of `client.get`, the application-level `status.code` /
`status.name` of the parsed body, an error body message, and the `them`
payload. -/
structure KeybaseUpstreamReply where
  httpSuccess : Bool
  httpStatus : Int
  errorMessage : String
  bodyCode : Int
  bodyName : String
  them : List KeybasePersonInfo
deriving DecidableEq, Repr

/-- Upstream-attributable fetch failure, as the Rust `Error` variants the
fetcher returns. -/
inductive FetchError
  /-- Embeds `Error::General(msg, status)` on a non-success response or a non-zero
  Keybase status code. -/
  | general (msg : String) (status : Int)
  /-- Embeds `Error::NoResult` when `them` is empty. -/
  | noResult
deriving DecidableEq, Repr

/-- Embeds `fetch_connections_by_platform_identity` (keybase/mod.rs 98-187),
restricted to its return value (the graph writes are side effects on the
store, not needed here): a non-success HTTP response, a non-zero Keybase
`status.code`, and an empty `them` array are each returned as `Err`; on
success, each proof item whose `proof_type` parses as a `Platform` yields
a discovered Target. -/
def fetch_connections_by_platform_identity (reply : KeybaseUpstreamReply) :
    Except FetchError (List Target) :=
  if reply.httpSuccess = false then
    Except.error (FetchError.general reply.errorMessage reply.httpStatus)
  else if reply.bodyCode ≠ 0 then
    Except.error (FetchError.general reply.bodyName reply.httpStatus)
  else
    match (reply.them.reverse).head? with
    | none => Except.error FetchError.noResult
    | some person =>
        Except.ok (person.proofs.filterMap (fun p =>
          (platformFromStr p.proof_type).map
            (fun pf => Target.identity pf p.nametag)))

/-- Embeds `Keybase::can_fetch` (keybase/mod.rs 93-96). -/
def keybaseCanFetch (t : Target) : Bool :=
  t.in_platform_supported [Platform.twitter, Platform.github, Platform.reddit]

/-- Embeds `Keybase::fetch` (keybase/mod.rs 80-91): unsupported targets yield an
empty list without touching the upstream; identity targets delegate to
`fetch_connections_by_platform_identity`, propagating its `Err`s. -/
def keybaseFetch (t : Target) (reply : KeybaseUpstreamReply) :
    Except FetchError (List Target) :=
  if keybaseCanFetch t = false then Except.ok []
  else fetch_connections_by_platform_identity reply

/-- Embeds `fetch_one` (upstream/mod.rs 304-320) applied to the already-joined
per-fetcher results: every fetcher's `Err` is replaced by an empty list
(`res.unwrap_or(vec![])`), the lists are concatenated, and the whole is
returned as `Ok`. -/
def fetch_one (results : List (Except FetchError (List Target))) :
    Except FetchError (List Target) :=
  Except.ok (results.foldr
    (fun r acc =>
      (match r with
        | Except.ok l => l
        | Except.error _ => []) ++ acc) [])

/-- A Keybase reply whose HTTP request failed with a 500. -/
def failedKeybaseReply : KeybaseUpstreamReply :=
  { httpSuccess := false
    httpStatus := 500
    errorMessage := "upstream down"
    bodyCode := 0
    bodyName := ""
    them := [] }

/-- C6 counterexample: on a non-success HTTP response — a failure
attributable to the upstream — `Keybase::fetch` returns an `Err`, not an
empty list, so `fetch` itself does not absorb upstream failures. -/
theorem keybase_fetch_propagates_upstream_error :
    keybaseFetch (Target.identity Platform.twitter "alice") failedKeybaseReply
      = Except.error (FetchError.general "upstream down" 500)
    ∧ (keybaseFetch (Target.identity Platform.twitter "alice") failedKeybaseReply).toOption
      = none :=
  ⟨rfl, rfl⟩

/-- C6 amended: an individual fetcher's `fetch` may return an error on an
upstream failure, but `fetch_one` replaces every fetcher error by an empty
list before merging, so a failing fetcher contributes exactly what an
empty result would and no upstream failure aborts the surrounding crawl
(`fetch_one` always returns `Ok`). -/
theorem fetch_one_absorbs_fetcher_errors
    (rs1 rs2 : List (Except FetchError (List Target))) (e : FetchError) :
    fetch_one (rs1 ++ [Except.error e] ++ rs2)
      = fetch_one (rs1 ++ [Except.ok []] ++ rs2)
    ∧ ∀ rs : List (Except FetchError (List Target)),
        ∃ l : List Target, fetch_one rs = Except.ok l := by
  constructor
  · unfold fetch_one
    rw [List.foldr_append, List.foldr_append, List.foldr_append, List.foldr_append]
    rfl
  · intro rs
    exact ⟨_, rfl⟩

/- ## Neighbor traversal (`src/graph/vertex/identity.rs` 431-491, 526-582)

Both queries run an AQL graph traversal
`FOR vertex, edge, path IN 1..depth ANY d GRAPH ...` over the Proof-edge
graph.  The embedding enumerates the traversal's paths explicitly: a stored
Proof edge carries its `_key` and its two vertex keys, a step from a vertex
follows an incident edge in either direction (ANY), and the traversal
yields every path of 1 to `depth` edges starting at the query vertex. -/

/-- A stored Proof edge: `_key`, `_from`, `_to` and the asserting source. -/
structure ProofEdge where
  key : Nat
  fromV : Nat
  toV : Nat
  source : DataSource
deriving DecidableEq, Repr

/-- Placeholder edge for the (never consulted) last-of-empty-path case. -/
def defaultProofEdge : ProofEdge := ⟨0, 0, 0, DataSource.unknown⟩

/-- Embeds `path.edges.last()` of a traversal path. -/
def lastEdgeD (p : List ProofEdge) : ProofEdge := p.getLastD defaultProofEdge

/-- One ANY-direction traversal step from vertex `v`: each incident edge
together with its far endpoint. -/
def step (edges : List ProofEdge) (v : Nat) : List (ProofEdge × Nat) :=
  edges.filterMap (fun e =>
    if e.fromV == v then some (e, e.toV)
    else if e.toV == v then some (e, e.fromV)
    else none)

/-- All traversal paths of exactly `n` edges from `v`: the edge list in
traversal order together with the reached vertex. -/
def walksExact (edges : List ProofEdge) (v : Nat) : Nat → List (List ProofEdge × Nat)
  | 0 => [([], v)]
  | n + 1 =>
      (walksExact edges v n).flatMap (fun pw =>
        (step edges pw.2).map (fun eu => (pw.1 ++ [eu.1], eu.2)))

/-- All traversal paths of 1 to `depth` edges from `v`
(`IN 1..depth ANY`). -/
def walksUpTo (edges : List ProofEdge) (v : Nat) (depth : Nat) :
    List (List ProofEdge × Nat) :=
  (List.range depth).flatMap (fun n => walksExact edges v (n + 1))

/-- Embeds `IdentityRecord::neighbors_with_traversal` (identity.rs 526-582):
without a source the AQL returns `RETURN DISTINCT edge` over all paths;
with a source it adds `FILTER path.edges[*].source ALL == @source` and
returns the paths' edges. -/
def neighbors_with_traversal (edges : List ProofEdge) (v : Nat) (depth : Nat)
    (source : Option DataSource) : List ProofEdge :=
  match source with
  | none => ((walksUpTo edges v depth).map (fun pw => lastEdgeD pw.1)).dedup
  | some s =>
      ((walksUpTo edges v depth).filter
        (fun pw => pw.1.all (fun e => e.source == s))).map (fun pw => lastEdgeD pw.1)

/-- Embeds `IdentityRecord::neighbors` (identity.rs 431-491): the `_source`
parameter is declared but never used — the AQL has no source filter.  Each
path contributes its final vertex, keyed by id, annotated with the deduped
sources of the last edges of the paths reaching it. -/
def neighbors (edges : List ProofEdge) (v : Nat) (depth : Nat)
    (_source : Option DataSource) : List (Nat × List DataSource) :=
  let ws := walksUpTo edges v depth
  ((ws.map (fun pw => pw.2)).dedup).map (fun k =>
    (k, ((ws.filter (fun pw => pw.2 == k)).map
      (fun pw => (lastEdgeD pw.1).source)).dedup))

/-- Helper: every traversal path of `walksUpTo` has at least one edge. -/
theorem walksUpTo_fst_ne_nil (edges : List ProofEdge) (v : Nat) (depth : Nat)
    (pw : List ProofEdge × Nat) (h : pw ∈ walksUpTo edges v depth) : pw.1 ≠ [] := by
  unfold walksUpTo at h
  obtain ⟨n, _, hw⟩ := List.mem_flatMap.mp h
  rw [show n + 1 = n + 1 from rfl, walksExact] at hw
  obtain ⟨q, _, hq⟩ := List.mem_flatMap.mp hw
  obtain ⟨eu, _, heu⟩ := List.mem_map.mp hq
  rw [← heu]
  simp

/-- Helper: the last element of a non-empty list is a member. -/
theorem getLastD_mem_of_ne_nil {α : Type} (l : List α) (d : α) (h : l ≠ []) :
    l.getLastD d ∈ l := by
  induction l generalizing d with
  | nil => exact absurd rfl h
  | cons x xs ih =>
      rw [List.getLastD_cons]
      cases hxs : xs with
      | nil => simp
      | cons y ys =>
          have := ih x (by simp [hxs])
          rw [hxs] at this
          exact List.mem_cons_of_mem x (hxs ▸ this)

/-- C9 counterexample: with a source filter supplied,
`IdentityRecord::neighbors` still returns the vertex reachable only
through a keybase-asserted edge when the filter asks for rss3, and the
filtered query equals the unfiltered one — the `_source` argument is
ignored. -/
theorem neighbors_ignores_source_filter :
    neighbors [⟨10, 0, 1, DataSource.keybase⟩] 0 1 (some DataSource.rss3)
      = [(1, [DataSource.keybase])]
    ∧ DataSource.keybase ≠ DataSource.rss3
    ∧ neighbors [⟨10, 0, 1, DataSource.keybase⟩] 0 1 (some DataSource.rss3)
      = neighbors [⟨10, 0, 1, DataSource.keybase⟩] 0 1 none := by
  refine ⟨by decide, by decide, rfl⟩

/-- C9 amended: the source filter is honored by
`neighbors_with_traversal`: every edge it returns under `some s` carries
source `s` and lies on a traversal path from the query vertex all of whose
edges carry source `s`.  (`IdentityRecord::neighbors`, by contrast,
ignores its `_source` argument entirely.) -/
theorem neighbors_with_traversal_source_filtered (edges : List ProofEdge) (v : Nat)
    (depth : Nat) (s : DataSource) (e : ProofEdge)
    (he : e ∈ neighbors_with_traversal edges v depth (some s)) :
    e.source = s
    ∧ ∃ pw ∈ walksUpTo edges v depth,
        pw.1.all (fun x => x.source == s) = true ∧ e ∈ pw.1 := by
  unfold neighbors_with_traversal at he
  obtain ⟨pw, hpw, hlast⟩ := List.mem_map.mp he
  obtain ⟨hmem, hall⟩ := List.mem_filter.mp hpw
  have hne : pw.1 ≠ [] := walksUpTo_fst_ne_nil edges v depth pw hmem
  have hlmem : lastEdgeD pw.1 ∈ pw.1 := getLastD_mem_of_ne_nil pw.1 defaultProofEdge hne
  have hemem : e ∈ pw.1 := hlast ▸ hlmem
  have hsrc : (e.source == s) = true := List.all_eq_true.mp hall e hemem
  exact ⟨beq_iff_eq.mp hsrc, pw, hmem, hall, hemem⟩

/-- Witness for `neighbors_with_traversal_source_filtered` on a one-edge
graph queried with the matching source. -/
theorem neighbors_with_traversal_source_filtered_witness :
    (⟨10, 0, 1, DataSource.keybase⟩ : ProofEdge).source = DataSource.keybase
    ∧ ∃ pw ∈ walksUpTo [⟨10, 0, 1, DataSource.keybase⟩] 0 1,
        pw.1.all (fun x => x.source == DataSource.keybase) = true
        ∧ (⟨10, 0, 1, DataSource.keybase⟩ : ProofEdge) ∈ pw.1 :=
  neighbors_with_traversal_source_filtered [⟨10, 0, 1, DataSource.keybase⟩] 0 1
    DataSource.keybase ⟨10, 0, 1, DataSource.keybase⟩ (by decide)

/-- Witness for `is_outdated_ttl_per_kind`: at one second past the 1-hour
TTL a concrete Identity is outdated. -/
theorem is_outdated_ttl_per_kind_witness :
    unsavedIdentity.is_outdated (unsavedIdentity.updated_at + 3600 + 1) = true :=
  (is_outdated_ttl_per_kind unsavedIdentity holdEns resolveEns 0).2.2.2.2.1

/-- Witness for `identityEq_requires_some_uuid`: a concrete uuid-less
Identity is not equal to itself. -/
theorem identityEq_requires_some_uuid_witness :
    identityEq unsavedIdentity unsavedIdentity = false :=
  identityEq_requires_some_uuid.2.2.1

/-- Witness for `identity_query_stale_while_revalidate`: a concrete miss
answers from the post-crawl re-read after a synchronous crawl. -/
theorem identity_query_stale_while_revalidate_witness :
    identityQuery none 0 (some winnerAlice)
      = (some winnerAlice, CrawlEffect.syncCrawlThenReread) :=
  (identity_query_stale_while_revalidate 0 (some winnerAlice) none unsavedIdentity).1

/-- Witness for `fetch_one_absorbs_fetcher_errors` at a concrete failing
fetcher result. -/
theorem fetch_one_absorbs_fetcher_errors_witness :
    fetch_one [Except.error FetchError.noResult] = fetch_one [Except.ok []] :=
  (fetch_one_absorbs_fetcher_errors [] [] FetchError.noResult).1
